import Mathlib

/-!
Verification of the periodic vehicle-telemetry ingestion pipeline
(`main.ts`): a cron-style scheduler that fetches vehicle positions from a
remote API, normalizes their timestamps to the Europe/Bucharest zone via
luxon, and writes them to PostgreSQL (an idempotent `vehicle` upsert plus an
append-only `vehicle_state` insert).

The development shallowly embeds the program:

* Instants are epoch milliseconds (`Int`), exactly what a JS `Date` and
  `DateTime.toJSDate()` carry.
* The Europe/Bucharest zone is modelled by its EU daylight-saving rule
  (UTC+2, switching to UTC+3 between 01:00 UTC of the last Sunday of March
  and 01:00 UTC of the last Sunday of October), which is the rule the IANA
  database applies to every instant the pipeline can encounter.
* luxon's `DateTime.fromISO` is modelled on the ISO shapes relevant here:
  `yyyy-MM-ddTHH:mm:ss`, optionally with `.SSS` milliseconds and optionally
  with a `Z` or `+HH:mm` / `-HH:mm` offset.  A string with an explicit
  offset denotes an absolute instant; a string without one is resolved in
  the process's default zone (modelled as an arbitrary offset function).
* luxon's `DateTime.fromFormat(s, "yyyy-MM-dd HH:mm:ss", zone)` is modelled
  by an exact pattern parser followed by luxon's `fixOffset` local-time
  resolution algorithm, which receives the zone's provisional offset (the
  offset at the wall-clock time of the call) as a parameter.
* The PostgreSQL tables are lists of rows; `INSERT ... ON CONFLICT (id) DO
  UPDATE` updates the matching rows or appends.
* The cycle (`runCronJob`) is a state transformer over the database plus an
  environment recording connection health, the HTTP outcome and which store
  writes the store rejects; JS exceptions are an explicit error value that
  aborts the remainder of the `for` loop, and the `catch`/`finally` at the
  end of `runCronJob` are modelled literally.
-/

namespace PTA

/-! ## Calendar arithmetic (Howard Hinnant's civil-date algorithms) -/

/-- Days since 1970-01-01 of the civil date `y-m-d` (proleptic Gregorian). -/
def daysFromCivil (y m d : Int) : Int :=
  let yAdj := if m ≤ 2 then y - 1 else y
  let era := yAdj / 400
  let yoe := yAdj - era * 400
  let mp := if m > 2 then m - 3 else m + 9
  let doy := (153 * mp + 2) / 5 + d - 1
  let doe := yoe * 365 + yoe / 4 - yoe / 100 + doy
  era * 146097 + doe - 719468

/-- Civil date `(year, month, day)` of a day count since 1970-01-01. -/
def civilFromDays (z0 : Int) : Int × Int × Int :=
  let z := z0 + 719468
  let era := z / 146097
  let doe := z - era * 146097
  let yoe := (doe - doe / 1460 + doe / 36524 - doe / 146096) / 365
  let y := yoe + era * 400
  let doy := doe - (365 * yoe + yoe / 4 - yoe / 100)
  let mp := (5 * doy + 2) / 153
  let d := doy - (153 * mp + 2) / 5 + 1
  let m := mp + (if mp < 10 then 3 else -9)
  (y + (if m ≤ 2 then 1 else 0), m, d)

/-- Day of week of a day count, `0` = Sunday (1970-01-01 was a Thursday). -/
def dowOf (days : Int) : Int := (days + 4) % 7

/-- Day count of the last Sunday of month `m` (a 31-day month) in year `y`. -/
def lastSundayDays (y m : Int) : Int :=
  let d31 := daysFromCivil y m 31
  d31 - dowOf d31

/-! ## The Europe/Bucharest zone -/

/-- Standard-time offset of Europe/Bucharest (UTC+2), in milliseconds. -/
def bOfsStd : Int := 7200000

/-- Summer-time offset of Europe/Bucharest (UTC+3), in milliseconds. -/
def bOfsDst : Int := 10800000

/-- Instant (epoch ms) at which summer time starts in year `y`:
01:00 UTC on the last Sunday of March (EU rule). -/
def tMar (y : Int) : Int := lastSundayDays y 3 * 86400000 + 3600000

/-- Instant (epoch ms) at which summer time ends in year `y`:
01:00 UTC on the last Sunday of October (EU rule). -/
def tOct (y : Int) : Int := lastSundayDays y 10 * 86400000 + 3600000

/-- Civil year (UTC) containing the instant `t` (epoch ms). -/
def yearOf (t : Int) : Int := (civilFromDays (t / 86400000)).1

/-- Offset of Europe/Bucharest at instant `t`, in milliseconds: UTC+3
during EU summer time, UTC+2 otherwise. -/
def buchOffset (t : Int) : Int :=
  let y := yearOf t
  if tMar y ≤ t ∧ t < tOct y then bOfsDst else bOfsStd

theorem buchOffset_cases (t : Int) :
    buchOffset t = bOfsStd ∨ buchOffset t = bOfsDst := by
  by_cases h : tMar (yearOf t) ≤ t ∧ t < tOct (yearOf t)
  · exact Or.inr (by simp [buchOffset, h])
  · exact Or.inl (by simp [buchOffset, h])

/-! ## Wall-clock fields and their rendering/parsing -/

/-- A wall-clock date-time, the information carried by a timestamp string
(`ms` is the optional fractional-second part, `0` when absent). -/
structure CivilTime where
  year : Nat
  month : Nat
  day : Nat
  hour : Nat
  minute : Nat
  second : Nat
  ms : Nat
deriving DecidableEq, Repr

/-- Number of days of month `m` in year `y` (Gregorian leap rule). -/
def daysInMonth (y m : Nat) : Nat :=
  if m = 2 then (if (y % 4 = 0 ∧ y % 100 ≠ 0) ∨ y % 400 = 0 then 29 else 28)
  else if m = 4 ∨ m = 6 ∨ m = 9 ∨ m = 11 then 30
  else 31

/-- Local epoch milliseconds of a wall-clock time: milliseconds since
1970-01-01T00:00:00 *of the same clock* (luxon's `objToLocalTS`). -/
def localTS (f : CivilTime) : Int :=
  daysFromCivil f.year f.month f.day * 86400000
    + f.hour * 3600000 + f.minute * 60000 + f.second * 1000 + f.ms

/-- The character for decimal digit `n`. -/
def digitChar (n : Nat) : Char := Char.ofNat (48 + n)

/-- Decimal digit denoted by character `c`, if any. -/
def toDigit (c : Char) : Option Nat :=
  if 48 ≤ c.toNat ∧ c.toNat ≤ 57 then some (c.toNat - 48) else none

/-- Two-digit zero-padded rendering (luxon format token `MM` etc.). -/
def pad2 (n : Nat) : List Char := [digitChar (n / 10), digitChar (n % 10)]

/-- Four-digit zero-padded rendering (luxon format token `yyyy`). -/
def pad4 (n : Nat) : List Char :=
  [digitChar (n / 1000), digitChar (n / 100 % 10),
   digitChar (n / 10 % 10), digitChar (n % 10)]

/-- Value of two digit characters. -/
def digits2 (a b : Char) : Option Nat := do
  let x ← toDigit a
  let y ← toDigit b
  pure (10 * x + y)

/-- Value of three digit characters. -/
def digits3 (a b c : Char) : Option Nat := do
  let x ← toDigit a
  let y ← toDigit b
  let z ← toDigit c
  pure (100 * x + 10 * y + z)

/-- Value of four digit characters. -/
def digits4 (a b c d : Char) : Option Nat := do
  let x ← toDigit a
  let y ← toDigit b
  let z ← toDigit c
  let w ← toDigit d
  pure (1000 * x + 100 * y + 10 * z + w)

/-- Renders a wall-clock time in the `yyyy-MM-dd HH:mm:ss` pattern
(the naive pattern of `main.ts` line 124; fractional seconds are not
representable in this pattern). -/
def renderNaive (f : CivilTime) : List Char :=
  pad4 f.year ++ '-' :: (pad2 f.month ++ '-' :: (pad2 f.day ++
    ' ' :: (pad2 f.hour ++ ':' :: (pad2 f.minute ++ ':' :: pad2 f.second))))

/-- Validity of wall-clock fields for the naive pattern: calendar-valid,
four-digit year, whole seconds. -/
def ValidNaive (f : CivilTime) : Prop :=
  f.year < 10000 ∧ 1 ≤ f.month ∧ f.month ≤ 12 ∧ 1 ≤ f.day
    ∧ f.day ≤ daysInMonth f.year f.month
    ∧ f.hour ≤ 23 ∧ f.minute ≤ 59 ∧ f.second ≤ 59 ∧ f.ms = 0

instance (f : CivilTime) : Decidable (ValidNaive f) := by
  unfold ValidNaive; infer_instance

/-- Parser for the exact `yyyy-MM-dd HH:mm:ss` pattern, validating the
calendar fields as luxon's `fromFormat` does.  Any other shape fails. -/
def parseNaive (cs : List Char) : Option CivilTime :=
  match cs with
  | [y1, y2, y3, y4, c1, m1, m2, c2, d1, d2, c3, h1, h2, c4, n1, n2, c5, s1, s2] =>
    if c1 = '-' ∧ c2 = '-' ∧ c3 = ' ' ∧ c4 = ':' ∧ c5 = ':' then
      match digits4 y1 y2 y3 y4, digits2 m1 m2, digits2 d1 d2,
            digits2 h1 h2, digits2 n1 n2, digits2 s1 s2 with
      | some y, some mo, some d, some h, some mi, some s =>
        if 1 ≤ mo ∧ mo ≤ 12 ∧ 1 ≤ d ∧ d ≤ daysInMonth y mo
            ∧ h ≤ 23 ∧ mi ≤ 59 ∧ s ≤ 59 then
          some ⟨y, mo, d, h, mi, s, 0⟩
        else none
      | _, _, _, _, _, _ => none
    else none
  | _ => none

/-- Optional `.SSS` fractional part of an ISO string; returns the
milliseconds and the remaining characters. -/
def parseIsoMs : List Char → Option (Nat × List Char)
  | '.' :: a :: b :: c :: rest => (digits3 a b c).map (fun n => (n, rest))
  | rest => some (0, rest)

/-- Optional trailing offset designator of an ISO string: nothing (a
zone-naive string), `Z`, or `+HH:mm` / `-HH:mm`.  Returns the offset in
milliseconds when one is present. -/
def parseIsoOffset : List Char → Option (Option Int)
  | [] => some none
  | ['Z'] => some (some 0)
  | ['+', h1, h2, c, m1, m2] =>
    if c = ':' then
      match digits2 h1 h2, digits2 m1 m2 with
      | some h, some m =>
        if h ≤ 23 ∧ m ≤ 59 then some (some ((h * 60 + m) * 60000)) else none
      | _, _ => none
    else none
  | ['-', h1, h2, c, m1, m2] =>
    if c = ':' then
      match digits2 h1 h2, digits2 m1 m2 with
      | some h, some m =>
        if h ≤ 23 ∧ m ≤ 59 then some (some (-((h * 60 + m) * 60000))) else none
      | _, _ => none
    else none
  | _ => none

/-- Parser for the ISO date-time shapes `DateTime.fromISO` can receive from
this pipeline: `yyyy-MM-ddTHH:mm:ss`, optional `.SSS`, optional offset.
Returns the wall-clock fields together with the explicit offset when the
string carries one. -/
def parseIso (cs : List Char) : Option (CivilTime × Option Int) :=
  match cs with
  | y1 :: y2 :: y3 :: y4 :: c1 :: m1 :: m2 :: c2 :: d1 :: d2 :: c3 :: rest =>
    if c1 = '-' ∧ c2 = '-' ∧ c3 = 'T' then
      match rest with
      | h1 :: h2 :: c4 :: n1 :: n2 :: c5 :: s1 :: s2 :: rest2 =>
        if c4 = ':' ∧ c5 = ':' then
          match digits4 y1 y2 y3 y4, digits2 m1 m2, digits2 d1 d2,
                digits2 h1 h2, digits2 n1 n2, digits2 s1 s2 with
          | some y, some mo, some d, some h, some mi, some s =>
            if 1 ≤ mo ∧ mo ≤ 12 ∧ 1 ≤ d ∧ d ≤ daysInMonth y mo
                ∧ h ≤ 23 ∧ mi ≤ 59 ∧ s ≤ 59 then
              match parseIsoMs rest2 with
              | some (ms, rest3) =>
                match parseIsoOffset rest3 with
                | some ofs => some (⟨y, mo, d, h, mi, s, ms⟩, ofs)
                | none => none
              | none => none
            else none
          | _, _, _, _, _, _ => none
        else none
      | _ => none
    else none
  | _ => none

/-! ## luxon's local-time resolution and the timestamp normalizer -/

/-- luxon's `fixOffset`: turns a local epoch (`localTS`) into an absolute
instant using a zone's offset function `off`, starting from the provisional
offset `o` (the zone's offset at the wall-clock time of the call).  Returns
the instant and the offset finally used. -/
def fixOffset (lts o : Int) (off : Int → Int) : Int × Int :=
  let g1 := lts - o
  let o2 := off g1
  if o2 = o then (g1, o)
  else
    let g2 := lts - o2
    let o3 := off g2
    if o3 = o2 then (g2, o2)
    else (lts - min o2 o3, min o2 o3)

/-- The timestamp-normalization logic of `runCronJob` (`main.ts` lines
117-138): try `DateTime.fromISO`; if it parses, `setZone("Europe/Bucharest")`
preserves the absolute instant, and `toJSDate()` exposes exactly that
instant; if it fails, try `DateTime.fromFormat(_, "yyyy-MM-dd HH:mm:ss",
zone Europe/Bucharest)`; if both fail the record is skipped.

`defZone`/`defProv` are the process default zone's offset function and
provisional offset (used by `fromISO` for strings carrying no offset), and
`buchProv` is the provisional offset used when resolving a naive string in
Europe/Bucharest. -/
def normalizeTs (defZone : Int → Int) (defProv buchProv : Int)
    (s : String) : Option Int :=
  match parseIso s.toList with
  | some (f, some ofs) => some (localTS f - ofs)
  | some (f, none) => some (fixOffset (localTS f) defProv defZone).1
  | none =>
    match parseNaive s.toList with
    | some f => some (fixOffset (localTS f) buchProv buchOffset).1
    | none => none

/-- Wall-clock fields of instant `t` (epoch ms) in Europe/Bucharest. -/
def buchCivil (t : Int) : CivilTime :=
  let w := t + buchOffset t
  let days := w / 86400000
  let ms := w % 86400000
  let ymd := civilFromDays days
  ⟨ymd.1.toNat, ymd.2.1.toNat, ymd.2.2.toNat,
   (ms / 3600000).toNat, (ms % 3600000 / 60000).toNat,
   (ms % 60000 / 1000).toNat, (ms % 1000).toNat⟩

/-- Modelled from the spec: §8 round-trips "a canonical-zone instant
through formatting-then-parsing-as-naive".  The repository contains no
formatter; this renders the instant's Europe/Bucharest wall clock in the
naive `yyyy-MM-dd HH:mm:ss` pattern (which carries no fractional part). -/
def formatNaive (t : Int) : String :=
  String.mk (renderNaive { buchCivil t with ms := 0 })

/-! ## Record Fetcher (`fetchFromApi`, `main.ts` lines 58-91) -/

/-- A raw vehicle record as returned by the API (`interface Vehicle`).
`latitude`/`longitude`/`speed` are opaque numeric payloads, carried as
rationals; `speed` is optional (`v.speed ?? 0` in the source). -/
structure Vehicle where
  id : String
  label : String
  vehicle_type : String
  latitude : Rat
  longitude : Rat
  timestamp : String
  speed : Option Rat
  bike_accessible : String
  wheelchair_accessible : String
deriving DecidableEq, Repr

/-- The configuration `fetchFromApi` consults (`process.env`). -/
structure FetchEnv where
  baseUrl : Option String
  apiKey : Option String
  agencyId : Option String

/-- Body of the HTTP response, as seen through `res.json()` and
`Array.isArray`: the JSON may fail to parse, parse to a non-array, or
parse to an array of records. -/
inductive JsonBody where
  | parseError : JsonBody
  | nonArray : JsonBody
  | array : List Vehicle → JsonBody

/-- Outcome of the `fetch()` call: a transport error (rejection) or a
response with a success flag (`res.ok`), a status and a body. -/
inductive FetchHttp where
  | transportError : FetchHttp
  | response : Bool → Nat → JsonBody → FetchHttp

/-- `fetchFromApi` (`main.ts` lines 58-91).  The function is total: every
failure mode — missing base URL (JS falsy, so `none` or the empty string),
transport error, non-success status, body that fails to parse or is not an
array — is logged and collapsed to the empty list; it never throws to the
caller. -/
def fetchFromApi (env : FetchEnv) (_path : String) (_useAgency : Bool)
    (http : FetchHttp) : List Vehicle :=
  match env.baseUrl with
  | none => []
  | some base =>
    if base = "" then []
    else
      match http with
      | .transportError => []
      | .response ok _status body =>
        if ok = false then []
        else
          match body with
          | .parseError => []
          | .nonArray => []
          | .array vs => vs

/-! ## The store (`vehicle` and `vehicle_state` tables) -/

/-- A row of the `vehicle` table (`id` is the primary key). -/
structure VehicleRow where
  id : String
  label : String
  vehicle_type : String
deriving DecidableEq, Repr

/-- A row of the `vehicle_state` table (the store-assigned surrogate key is
left implicit: the list position).  `timestamp` is the epoch-ms instant of
the JS `Date` handed to the driver. -/
structure StateRow where
  vehicle_id : String
  latitude : Rat
  longitude : Rat
  timestamp : Int
  speed : Rat
  bike_accessible : Bool
  wheelchair_accessible : Bool
deriving DecidableEq, Repr

/-- The two tables of the destination store. -/
structure DbState where
  vehicle : List VehicleRow
  vehicle_state : List StateRow
deriving DecidableEq, Repr

/-- `INSERT INTO vehicle ... ON CONFLICT (id) DO UPDATE SET label,
vehicle_type` (`main.ts` lines 107-114): update the rows whose `id`
matches (at most one, as `id` is the primary key), else append. -/
def upsertVehicle (tbl : List VehicleRow) (id label vtype : String) :
    List VehicleRow :=
  if tbl.any (fun r => r.id == id) then
    tbl.map (fun r => if r.id = id then ⟨r.id, label, vtype⟩ else r)
  else
    tbl ++ [⟨id, label, vtype⟩]

/-- The `vehicle_state` row built for record `v` at instant `ts`
(`main.ts` lines 103-104 and 141-145). -/
def mkStateRow (v : Vehicle) (ts : Int) : StateRow :=
  ⟨v.id, v.latitude, v.longitude, ts, v.speed.getD 0,
   v.bike_accessible == "BIKE_ACCESSIBLE",
   v.wheelchair_accessible == "WHEELCHAIR_ACCESSIBLE"⟩

/-! ## Cycle Orchestrator (`runCronJob`, `main.ts` lines 93-158) -/

/-- A JS exception thrown inside the cycle. -/
inductive CronError where
  | connectFailed : CronError
  | upsertFailed : String → CronError
  | insertFailed : String → CronError
deriving DecidableEq, Repr

/-- Environment of one cycle: whether `client.connect()` succeeds, what the
HTTP layer returns, which store writes the store rejects (keyed by vehicle
id), and the zone context of the timestamp normalizer. -/
structure Env where
  connectOk : Bool
  fetchEnv : FetchEnv
  http : FetchHttp
  upsertFails : String → Bool
  insertFails : String → Bool
  defZone : Int → Int
  defProv : Int
  buchProv : Int

/-- The `for (const v of vehicles)` loop (`main.ts` lines 102-146).  A
rejected store write is a JS exception: it aborts the loop and is returned
as the error of the cycle (there is no try/catch inside the loop).  An
invalid timestamp only logs and `continue`s. -/
def runLoop (env : Env) (db : DbState) : List Vehicle →
    DbState × Option CronError
  | [] => (db, none)
  | v :: rest =>
    if env.upsertFails v.id then (db, some (.upsertFailed v.id))
    else
      let db1 : DbState :=
        { db with vehicle := upsertVehicle db.vehicle v.id v.label v.vehicle_type }
      match normalizeTs env.defZone env.defProv env.buchProv v.timestamp with
      | none => runLoop env db1 rest
      | some ts =>
        if env.insertFails v.id then (db1, some (.insertFailed v.id))
        else
          runLoop env
            { db1 with vehicle_state := db1.vehicle_state ++ [mkStateRow v ts] }
            rest

/-- Connection lifecycle events observable on the store. -/
inductive ConnEvent where
  | opened : ConnEvent
  | closed : ConnEvent
deriving DecidableEq, Repr

/-- What one invocation of `runCronJob` produces.  `caughtError` is the
error logged by the `catch` block (`console.error`, line 151); `raised` is
what the returned promise rejects with — the `catch` never rethrows, so the
model can only ever put `none` there. -/
structure CycleResult where
  db : DbState
  connEvents : List ConnEvent
  caughtError : Option CronError
  raised : Option CronError
deriving Repr

/-- `runCronJob` (`main.ts` lines 93-158): connect (a failure there is
rethrown by `createDbConnection` and caught by the cycle's own `catch`),
fetch (total, never throws), run the loop, catch any error (log only), and
in `finally` close the connection whenever one was opened. -/
def runCronJob (env : Env) (db : DbState) : CycleResult :=
  if env.connectOk then
    let vehicles := fetchFromApi env.fetchEnv "/vehicles" true env.http
    match runLoop env db vehicles with
    | (db1, none) =>
      ⟨db1, [.opened, .closed], none, none⟩
    | (db1, some e) =>
      ⟨db1, [.opened, .closed], some e, none⟩
  else
    ⟨db, [], some .connectFailed, none⟩

/-! ## Interval Scheduler (`main.ts` lines 191-193) -/

/-- Scheduler state: how many invocations of `runCronJob` are currently
in flight. -/
structure SchedState where
  running : Nat
deriving DecidableEq, Repr

/-- Events of the event loop: a timer tick of `setInterval(runCronJob,
60_000)`, or the completion of one in-flight `runCronJob`. -/
inductive SchedEvent where
  | tick : SchedEvent
  | complete : SchedEvent
deriving DecidableEq, Repr

/-- One event-loop step.  `setInterval` invokes `runCronJob` on every tick;
`main.ts` contains no in-flight guard, so a tick unconditionally starts one
more invocation.  A completion retires one. -/
def schedStep (s : SchedState) : SchedEvent → SchedState
  | .tick => ⟨s.running + 1⟩
  | .complete => ⟨s.running - 1⟩

/-- The scheduler state after a sequence of event-loop events. -/
def schedRun (s : SchedState) (es : List SchedEvent) : SchedState :=
  es.foldl schedStep s

/-! ## Concrete fixtures -/

/-- The empty store. -/
def db0 : DbState := ⟨[], []⟩

/-- The spec §8 example record (UTC timestamp, bike accessible). -/
def vOne : Vehicle :=
  ⟨"V1", "Bus 1", "BUS", 444/10, 261/10, "2025-11-22T14:15:20.000Z",
   some (125/10), "BIKE_ACCESSIBLE", "NOT_ACCESSIBLE"⟩

/-- A second record, with a naive-format timestamp. -/
def vTwo : Vehicle :=
  ⟨"V2", "Tram 2", "TRAM", 44, 26, "2025-11-22 16:15:20", none,
   "X", "WHEELCHAIR_ACCESSIBLE"⟩

/-- A record whose timestamp matches neither recognized pattern. -/
def vBad : Vehicle :=
  ⟨"V3", "Bus 3", "BUS", 45, 25, "not-a-timestamp", some 1, "X", "X"⟩

/-- A healthy cycle environment: the store accepts everything, the API
returns `[vOne, vTwo]`, the process default zone is UTC. -/
def envOk : Env :=
  ⟨true, ⟨some "https://api", some "key", none⟩,
   .response true 200 (.array [vOne, vTwo]),
   fun _ => false, fun _ => false, fun _ => 0, 0, bOfsStd⟩

/-- Like `envOk`, but `client.connect()` fails. -/
def envConnFail : Env :=
  ⟨false, ⟨some "https://api", some "key", none⟩,
   .response true 200 (.array [vOne, vTwo]),
   fun _ => false, fun _ => false, fun _ => 0, 0, bOfsStd⟩

/-- Like `envOk`, but the store rejects the `vehicle` upsert for id V1. -/
def envUpsertFail : Env :=
  ⟨true, ⟨some "https://api", some "key", none⟩,
   .response true 200 (.array [vOne, vTwo]),
   fun id => id == "V1", fun _ => false, fun _ => 0, 0, bOfsStd⟩

/-! ## C1 — scheduler overlap -/

/-- C1 counterexample: the claim says that two back-to-back ticks with no
completion in between leave at most one `runCronJob` in flight.  In the
code `setInterval(runCronJob, 60_000)` invokes `runCronJob` with no
in-flight guard, so after two ticks two invocations are running
concurrently. -/
theorem C1_counterexample :
    ¬ (schedRun ⟨0⟩ [.tick, .tick]).running ≤ 1 := by decide

/-- C1 (amended): every timer tick starts one more `runCronJob` invocation
regardless of how many are already in flight — the scheduler has no mutual
exclusion, so overlapping cycles are possible whenever a cycle outlasts the
60-second interval. -/
theorem C1_thm (s : SchedState) :
    (schedStep s .tick).running = s.running + 1 := rfl

/-! ## C8 — fetch failure degrades to an empty batch -/

/-- C8: on any of missing base configuration, transport error, non-success
response status, or malformed body (unparseable or non-array JSON),
`fetchFromApi` does not raise — it is a total function — and returns the
empty sequence, so a failed poll makes the cycle's loop a no-op. -/
theorem C8_thm :
    (∀ k a path ua http,
      fetchFromApi ⟨none, k, a⟩ path ua http = [])
    ∧ (∀ env path ua,
      fetchFromApi env path ua .transportError = [])
    ∧ (∀ env path ua st body,
      fetchFromApi env path ua (.response false st body) = [])
    ∧ (∀ env path ua st,
      fetchFromApi env path ua (.response true st .parseError) = [])
    ∧ (∀ env path ua st,
      fetchFromApi env path ua (.response true st .nonArray) = [])
    ∧ (∀ env db, runLoop env db [] = (db, none)) := by
  refine ⟨fun k a path ua http => rfl, ?_, ?_, ?_, ?_, fun env db => rfl⟩ <;>
  · intro env
    obtain ⟨b, k, a⟩ := env
    intro path ua
    cases b with
    | none => intros; rfl
    | some base =>
      intros
      unfold fetchFromApi
      by_cases hb : base = "" <;> simp [hb]

/-! ## C3 — connection lifecycle -/

/-- C3 counterexample: the claim says one store connection is created once
and shared for the whole process lifetime, released only at shutdown.  In
the code each `runCronJob` opens its own connection and closes it in the
cycle's `finally`: already the first cycle emits a close event, and a
second cycle opens a second connection. -/
theorem C3_counterexample :
    (runCronJob envOk db0).connEvents = [.opened, .closed]
    ∧ (runCronJob envOk (runCronJob envOk db0).db).connEvents
        = [.opened, .closed] := by decide

/-- C3 (amended): each cycle creates its own store connection at cycle
start and releases it in the cycle's `finally` before the cycle returns;
there is no process-lifetime shared connection. -/
theorem C3_thm (env : Env) (db : DbState) (h : env.connectOk = true) :
    (runCronJob env db).connEvents = [.opened, .closed] := by
  unfold runCronJob
  rw [h]
  simp only [if_true]
  split <;> rfl

/-- Witness for C3: `envOk` connects, and its cycle opens and closes its
own connection. -/
theorem C3_witness :
    envOk.connectOk = true
    ∧ (runCronJob envOk db0).connEvents = [.opened, .closed] :=
  ⟨rfl, C3_thm envOk db0 rfl⟩

/-! ## C4 — cycle-level connection failure is swallowed -/

/-- C4 counterexample: the claim says a cycle-level store-connection
failure is reported out of `runCronJob` to its caller rather than caught
and swallowed.  In the code the `catch` at lines 150-151 catches it and
only logs: the promise returned by `runCronJob` resolves normally
(`raised = none`), with the failure visible only on the console. -/
theorem C4_counterexample :
    (runCronJob envConnFail db0).raised = none
    ∧ (runCronJob envConnFail db0).caughtError = some .connectFailed := by
  decide

/-- C4 (amended): a store-connection failure is caught inside `runCronJob`
itself and only logged — the cycle returns normally with the store
untouched and no connection event, and in fact no error of any kind ever
propagates out of `runCronJob` to the scheduler. -/
theorem C4_thm (env : Env) (db : DbState) (h : env.connectOk = false) :
    runCronJob env db = ⟨db, [], some .connectFailed, none⟩
    ∧ ∀ env2 db2, (runCronJob env2 db2).raised = none := by
  constructor
  · unfold runCronJob
    rw [h]
    rfl
  · intro env2 db2
    unfold runCronJob
    by_cases h2 : env2.connectOk = true
    · rw [h2]
      simp only [if_true]
      split <;> rfl
    · simp only [Bool.not_eq_true] at h2
      rw [h2]
      rfl

/-- Witness for C4: `envConnFail` fails to connect, and its cycle swallows
the failure. -/
theorem C4_witness :
    envConnFail.connectOk = false
    ∧ (runCronJob envConnFail db0 = ⟨db0, [], some .connectFailed, none⟩
        ∧ ∀ env2 db2, (runCronJob env2 db2).raised = none) :=
  ⟨rfl, C4_thm envConnFail db0 rfl⟩

/-! ## C2 — a failed upsert aborts the rest of the batch -/

/-- C2 counterexample: the claim says that when the Vehicle upsert fails
for one record, the remaining records of the batch are still processed.
With a batch `[vOne, vTwo]` whose first upsert is rejected, the loop has no
internal try/catch: the exception aborts it, the cycle's catch logs it, and
nothing at all is written — in particular vTwo is never processed. -/
theorem C2_counterexample :
    (runCronJob envUpsertFail db0).db.vehicle = []
    ∧ (runCronJob envUpsertFail db0).db.vehicle_state = []
    ∧ (runCronJob envUpsertFail db0).caughtError
        = some (.upsertFailed "V1") := by decide

/-- C2 (amended): if the store rejects the Vehicle upsert for a record,
no VehicleState row is inserted for that record (the store is exactly as
before the record), but the failure propagates out of the loop as the
cycle's error, so the remaining records of the batch are not processed. -/
theorem C2_thm (env : Env) (db : DbState) (v : Vehicle) (rest : List Vehicle)
    (h : env.upsertFails v.id = true) :
    runLoop env db (v :: rest) = (db, some (.upsertFailed v.id)) := by
  unfold runLoop
  rw [h]
  rfl

/-- Witness for C2: the store rejects V1's upsert, processing of
`[vOne, vTwo]` stops at once with the store unchanged. -/
theorem C2_witness :
    envUpsertFail.upsertFails vOne.id = true
    ∧ runLoop envUpsertFail db0 [vOne, vTwo]
        = (db0, some (.upsertFailed vOne.id)) :=
  ⟨rfl, C2_thm envUpsertFail db0 vOne [vTwo] rfl⟩

/-! ## C5 — an unparseable timestamp skips the record and continues -/

/-- C5: for a record whose timestamp string fails both parse attempts (the
ISO parse and the zone-naive format parse), the normalizer fails (the
`InvalidTimestamp` case, `ts.isValid` false), no `vehicle_state` row is
inserted for that record — the state table is unchanged by the record's
processing step — and the loop `continue`s with the remaining records. -/
theorem C5_thm (env : Env) (db : DbState) (v : Vehicle) (rest : List Vehicle)
    (hu : env.upsertFails v.id = false)
    (hiso : parseIso v.timestamp.toList = none)
    (hfmt : parseNaive v.timestamp.toList = none) :
    normalizeTs env.defZone env.defProv env.buchProv v.timestamp = none
    ∧ runLoop env db (v :: rest)
        = runLoop env
            { db with vehicle := upsertVehicle db.vehicle v.id v.label v.vehicle_type }
            rest
    ∧ ({ db with vehicle := upsertVehicle db.vehicle v.id v.label v.vehicle_type }
        : DbState).vehicle_state = db.vehicle_state := by
  have hn : normalizeTs env.defZone env.defProv env.buchProv v.timestamp = none := by
    unfold normalizeTs
    rw [hiso, hfmt]
  refine ⟨hn, ?_, rfl⟩
  conv_lhs => rw [runLoop]
  rw [hu, hn]
  simp

/-- Witness for C5: `vBad`'s timestamp matches neither pattern; processing
`[vBad, vTwo]` upserts V3's vehicle row, adds no state row for it, and
continues with `vTwo`. -/
theorem C5_witness :
    envOk.upsertFails vBad.id = false
    ∧ parseIso vBad.timestamp.toList = none
    ∧ parseNaive vBad.timestamp.toList = none
    ∧ (normalizeTs envOk.defZone envOk.defProv envOk.buchProv vBad.timestamp = none
      ∧ runLoop envOk db0 [vBad, vTwo]
          = runLoop envOk
              { db0 with vehicle := upsertVehicle db0.vehicle vBad.id vBad.label vBad.vehicle_type }
              [vTwo]
      ∧ ({ db0 with vehicle := upsertVehicle db0.vehicle vBad.id vBad.label vBad.vehicle_type }
          : DbState).vehicle_state = db0.vehicle_state) :=
  ⟨rfl, by decide, by decide,
   C5_thm envOk db0 vBad [vTwo] rfl (by decide) (by decide)⟩

/-! ## C10 — the upsert lands even when the timestamp is invalid -/

/-- The upserted table always contains a row carrying the new id, label and
vehicle type. -/
theorem upsertVehicle_mem (tbl : List VehicleRow) (id l vt : String) :
    ∃ r ∈ upsertVehicle tbl id l vt,
      r.id = id ∧ r.label = l ∧ r.vehicle_type = vt := by
  unfold upsertVehicle
  by_cases ha : tbl.any (fun r => r.id == id) = true
  · rw [ha]
    simp only [if_true]
    obtain ⟨x, hx, hxid⟩ := List.any_eq_true.mp ha
    rw [beq_iff_eq] at hxid
    exact ⟨⟨x.id, l, vt⟩,
      List.mem_map.mpr ⟨x, hx, by simp [hxid]⟩, hxid, rfl, rfl⟩
  · simp only [Bool.not_eq_true] at ha
    rw [ha]
    simp only [Bool.false_eq_true, if_false]
    exact ⟨⟨id, l, vt⟩, List.mem_append_right _ (List.mem_singleton.mpr rfl),
      rfl, rfl, rfl⟩

/-- C10: for a record whose timestamp fails both parse attempts, the
Vehicle upsert has already been executed when the timestamp is validated —
the loop body writes the vehicle row first (lines 107-114) and only then
parses the timestamp (lines 117-137) — so the vehicle table is still
created/updated for the record even though its VehicleState insert is
skipped; record processing is not atomic on timestamp failure. -/
theorem C10_thm (env : Env) (db : DbState) (v : Vehicle) (rest : List Vehicle)
    (hu : env.upsertFails v.id = false)
    (hiso : parseIso v.timestamp.toList = none)
    (hfmt : parseNaive v.timestamp.toList = none) :
    runLoop env db (v :: rest)
      = runLoop env
          { db with vehicle := upsertVehicle db.vehicle v.id v.label v.vehicle_type }
          rest
    ∧ (∃ r ∈ upsertVehicle db.vehicle v.id v.label v.vehicle_type,
        r.id = v.id ∧ r.label = v.label ∧ r.vehicle_type = v.vehicle_type)
    ∧ ({ db with vehicle := upsertVehicle db.vehicle v.id v.label v.vehicle_type }
        : DbState).vehicle_state = db.vehicle_state := by
  have hn : normalizeTs env.defZone env.defProv env.buchProv v.timestamp = none := by
    unfold normalizeTs
    rw [hiso, hfmt]
  refine ⟨?_, upsertVehicle_mem db.vehicle v.id v.label v.vehicle_type, rfl⟩
  conv_lhs => rw [runLoop]
  rw [hu, hn]
  simp

/-- Witness for C10: with `vBad`'s unparseable timestamp, the V3 vehicle
row is still upserted while its state insert is skipped. -/
theorem C10_witness :
    envOk.upsertFails vBad.id = false
    ∧ parseIso vBad.timestamp.toList = none
    ∧ parseNaive vBad.timestamp.toList = none
    ∧ (runLoop envOk db0 [vBad]
        = runLoop envOk
            { db0 with vehicle := upsertVehicle db0.vehicle vBad.id vBad.label vBad.vehicle_type }
            []
      ∧ (∃ r ∈ upsertVehicle db0.vehicle vBad.id vBad.label vBad.vehicle_type,
          r.id = vBad.id ∧ r.label = vBad.label ∧ r.vehicle_type = vBad.vehicle_type)
      ∧ ({ db0 with vehicle := upsertVehicle db0.vehicle vBad.id vBad.label vBad.vehicle_type }
          : DbState).vehicle_state = db0.vehicle_state) :=
  ⟨rfl, by decide, by decide,
   C10_thm envOk db0 vBad [] rfl (by decide) (by decide)⟩

/-! ## C9 — upsert leaves one row with the latest attributes -/

/-- The id column of the `vehicle` table. -/
def idsOf (tbl : List VehicleRow) : List String := tbl.map VehicleRow.id

/-- Upserting does not change the id column when the id is present, and
appends exactly the new id when it is not. -/
theorem upsertVehicle_ids (tbl : List VehicleRow) (id l vt : String) :
    idsOf (upsertVehicle tbl id l vt)
      = if tbl.any (fun r => r.id == id) then idsOf tbl
        else idsOf tbl ++ [id] := by
  unfold upsertVehicle idsOf
  by_cases ha : tbl.any (fun r => r.id == id) = true
  · simp only [ha, if_true, List.map_map]
    refine List.map_congr_left ?_
    intro r _
    by_cases hr : r.id = id <;> simp [hr]
  · simp only [Bool.not_eq_true] at ha
    simp [ha]

/-- After an upsert, a row with the upserted id is present. -/
theorem upsertVehicle_any (tbl : List VehicleRow) (id l vt : String) :
    (upsertVehicle tbl id l vt).any (fun r => r.id == id) = true := by
  obtain ⟨r, hr, hid, _, _⟩ := upsertVehicle_mem tbl id l vt
  exact List.any_eq_true.mpr ⟨r, hr, beq_iff_eq.mpr hid⟩

/-- Rows whose id differs from `id` are untouched by the update map and
excluded by the id filter. -/
theorem filter_map_update_nil (rs : List VehicleRow) (id l vt : String)
    (h : ∀ x ∈ rs, x.id ≠ id) :
    (rs.map (fun r => if r.id = id then (⟨r.id, l, vt⟩ : VehicleRow) else r)).filter
      (fun r => r.id == id) = [] := by
  induction rs with
  | nil => rfl
  | cons x xs ih =>
    have hx : x.id ≠ id := h x (List.mem_cons_self x xs)
    simp only [List.map_cons, List.filter_cons, hx, if_false]
    rw [if_neg (by simp [hx])]
    exact ih (fun y hy => h y (List.mem_cons_of_mem x hy))

/-- With a membership witness and a duplicate-free id column, updating the
matching rows and filtering by the id leaves exactly the one new row. -/
theorem filter_map_update (rs : List VehicleRow) (id l vt : String)
    (hmem : rs.any (fun r => r.id == id) = true)
    (hnd : (rs.map VehicleRow.id).Nodup) :
    (rs.map (fun r => if r.id = id then (⟨r.id, l, vt⟩ : VehicleRow) else r)).filter
      (fun r => r.id == id) = [⟨id, l, vt⟩] := by
  induction rs with
  | nil => simp at hmem
  | cons r rs ih =>
    simp only [List.map_cons, List.nodup_cons] at hnd
    by_cases hr : r.id = id
    · have htail : (rs.map (fun r => if r.id = id then (⟨r.id, l, vt⟩ : VehicleRow) else r)).filter
          (fun r => r.id == id) = [] :=
        filter_map_update_nil rs id l vt
          (fun x hx hc => hnd.1 (by rw [hr, ← hc]; exact List.mem_map_of_mem VehicleRow.id hx))
      simp only [List.map_cons]
      rw [if_pos hr]
      rw [List.filter_cons, if_pos (by simp [hr]), htail, hr]
    · have hm2 : rs.any (fun r => r.id == id) = true := by
        simp only [List.any_cons, Bool.or_eq_true] at hmem
        rcases hmem with hc | hm
        · exact absurd (beq_iff_eq.mp hc) hr
        · exact hm
      simp only [List.map_cons]
      rw [if_neg hr]
      rw [List.filter_cons, if_neg (by simp [hr])]
      exact ih hm2 hnd.2

/-- With a duplicate-free id column (the primary-key invariant), an upsert
leaves exactly one row carrying the upserted id, and it has the new label
and vehicle type. -/
theorem upsertVehicle_filter (tbl : List VehicleRow) (id l vt : String)
    (h : (idsOf tbl).Nodup) :
    (upsertVehicle tbl id l vt).filter (fun r => r.id == id)
      = [⟨id, l, vt⟩] := by
  unfold upsertVehicle
  by_cases ha : tbl.any (fun r => r.id == id) = true
  · simp only [ha, if_true]
    exact filter_map_update tbl id l vt ha h
  · simp only [Bool.not_eq_true] at ha
    simp only [ha, Bool.false_eq_true, if_false, List.filter_append]
    have hnil : tbl.filter (fun r => r.id == id) = [] := by
      rw [List.filter_eq_nil_iff]
      intro x hx
      have := List.any_eq_false.mp ha x hx
      simpa using this
    rw [hnil]
    simp

/-- C9: upserting the same Vehicle id twice (with the primary-key
invariant that ids start out duplicate-free) leaves exactly one `vehicle`
row for that id, carrying the latest label and vehicle type, and the
second write changes no id — identity is never rewritten. -/
theorem C9_thm (tbl : List VehicleRow) (id l1 vt1 l2 vt2 : String)
    (h : (idsOf tbl).Nodup) :
    (upsertVehicle (upsertVehicle tbl id l1 vt1) id l2 vt2).filter
        (fun r => r.id == id) = [⟨id, l2, vt2⟩]
    ∧ idsOf (upsertVehicle (upsertVehicle tbl id l1 vt1) id l2 vt2)
        = idsOf (upsertVehicle tbl id l1 vt1) := by
  have h1 : (idsOf (upsertVehicle tbl id l1 vt1)).Nodup := by
    rw [upsertVehicle_ids]
    by_cases ha : tbl.any (fun r => r.id == id) = true
    · simpa [ha] using h
    · simp only [Bool.not_eq_true] at ha
      simp only [ha, Bool.false_eq_true, if_false]
      rw [List.nodup_append]
      refine ⟨h, List.nodup_singleton id, ?_⟩
      intro x hx
      simp only [List.mem_singleton]
      intro hxid
      subst hxid
      obtain ⟨r, hr, hrid⟩ := List.mem_map.mp hx
      have := List.any_eq_false.mp ha r hr
      simp [hrid] at this
  constructor
  · exact upsertVehicle_filter _ id l2 vt2 h1
  · rw [upsertVehicle_ids]
    simp [upsertVehicle_any tbl id l1 vt1]

/-- Witness for C9: upserting V1 twice over a two-row table with
duplicate-free ids keeps one V1 row with the latest attributes. -/
theorem C9_witness :
    (idsOf [(⟨"V1", "a", "BUS"⟩ : VehicleRow), ⟨"V2", "b", "TRAM"⟩]).Nodup
    ∧ ((upsertVehicle (upsertVehicle
          [(⟨"V1", "a", "BUS"⟩ : VehicleRow), ⟨"V2", "b", "TRAM"⟩]
          "V1" "Bus 1" "BUS") "V1" "Bus One" "COACH").filter
        (fun r => r.id == "V1") = [⟨"V1", "Bus One", "COACH"⟩]
      ∧ idsOf (upsertVehicle (upsertVehicle
            [(⟨"V1", "a", "BUS"⟩ : VehicleRow), ⟨"V2", "b", "TRAM"⟩]
            "V1" "Bus 1" "BUS") "V1" "Bus One" "COACH")
          = idsOf (upsertVehicle
            [(⟨"V1", "a", "BUS"⟩ : VehicleRow), ⟨"V2", "b", "TRAM"⟩]
            "V1" "Bus 1" "BUS")) :=
  ⟨by decide,
   C9_thm [⟨"V1", "a", "BUS"⟩, ⟨"V2", "b", "TRAM"⟩] "V1" "Bus 1" "BUS"
     "Bus One" "COACH" (by decide)⟩

/-! ## C7 — explicit-offset strings are normalized zone-invariantly -/

/-- C7: for any two timestamp strings carrying explicit zone/offset
information that denote the same absolute instant, the normalizer produces
identical output, namely exactly that instant: the conversion to the
canonical zone (`setZone` + `toJSDate`) is zone-aware and preserves the
absolute instant. -/
theorem C7_thm (dz : Int → Int) (dp bp : Int) (s1 s2 : String)
    (f1 f2 : CivilTime) (o1 o2 : Int)
    (h1 : parseIso s1.toList = some (f1, some o1))
    (h2 : parseIso s2.toList = some (f2, some o2))
    (heq : localTS f1 - o1 = localTS f2 - o2) :
    normalizeTs dz dp bp s1 = normalizeTs dz dp bp s2
    ∧ normalizeTs dz dp bp s1 = some (localTS f1 - o1) := by
  unfold normalizeTs
  rw [h1, h2]
  refine ⟨?_, rfl⟩
  show some (localTS f1 - o1) = some (localTS f2 - o2)
  rw [heq]

/-- Witness for C7: the same instant written in UTC and in +03:00
normalizes to the identical epoch value 1763820920000. -/
theorem C7_witness :
    parseIso "2025-11-22T14:15:20.000Z".toList
        = some (⟨2025, 11, 22, 14, 15, 20, 0⟩, some 0)
    ∧ parseIso "2025-11-22T17:15:20.000+03:00".toList
        = some (⟨2025, 11, 22, 17, 15, 20, 0⟩, some 10800000)
    ∧ localTS ⟨2025, 11, 22, 14, 15, 20, 0⟩ - 0
        = localTS ⟨2025, 11, 22, 17, 15, 20, 0⟩ - 10800000
    ∧ (normalizeTs (fun _ => 0) 0 bOfsStd "2025-11-22T14:15:20.000Z"
        = normalizeTs (fun _ => 0) 0 bOfsStd "2025-11-22T17:15:20.000+03:00"
      ∧ normalizeTs (fun _ => 0) 0 bOfsStd "2025-11-22T14:15:20.000Z"
        = some (localTS ⟨2025, 11, 22, 14, 15, 20, 0⟩ - 0)) :=
  ⟨by decide, by decide, by decide,
   C7_thm (fun _ => 0) 0 bOfsStd "2025-11-22T14:15:20.000Z"
     "2025-11-22T17:15:20.000+03:00" ⟨2025, 11, 22, 14, 15, 20, 0⟩
     ⟨2025, 11, 22, 17, 15, 20, 0⟩ 0 10800000
     (by decide) (by decide) (by decide)⟩

/-! ## C6 — naive timestamps and the format/parse round trip -/

/-- Digit characters decode to their digit. -/
theorem toDigit_digitChar : ∀ n, n < 10 → toDigit (digitChar n) = some n := by
  decide

/-- `digits2` inverts `pad2`. -/
theorem digits2_digitChar (n : Nat) (h : n < 100) :
    digits2 (digitChar (n / 10)) (digitChar (n % 10)) = some n := by
  unfold digits2
  rw [toDigit_digitChar (n / 10) (by omega), toDigit_digitChar (n % 10) (by omega)]
  show some (10 * (n / 10) + n % 10) = some n
  congr 1
  omega

/-- `digits4` inverts `pad4`. -/
theorem digits4_digitChar (n : Nat) (h : n < 10000) :
    digits4 (digitChar (n / 1000)) (digitChar (n / 100 % 10))
      (digitChar (n / 10 % 10)) (digitChar (n % 10)) = some n := by
  unfold digits4
  rw [toDigit_digitChar (n / 1000) (by omega), toDigit_digitChar (n / 100 % 10) (by omega),
      toDigit_digitChar (n / 10 % 10) (by omega), toDigit_digitChar (n % 10) (by omega)]
  show some (1000 * (n / 1000) + 100 * (n / 100 % 10) + 10 * (n / 10 % 10) + n % 10) = some n
  congr 1
  omega

/-- No month has more than 31 days. -/
theorem daysInMonth_le (y m : Nat) : daysInMonth y m ≤ 31 := by
  unfold daysInMonth
  split
  · split <;> omega
  · split <;> omega

/-- Parsing a rendered naive string recovers the wall-clock fields. -/
theorem parseNaive_renderNaive (f : CivilTime) (hf : ValidNaive f) :
    parseNaive (renderNaive f) = some f := by
  obtain ⟨y, mo, d, h, mi, s, ms⟩ := f
  obtain ⟨hy, hmo1, hmo2, hd1, hd2, hh, hmi, hs, hms⟩ := hf
  simp only at hy hmo1 hmo2 hd1 hd2 hh hmi hs hms
  subst hms
  unfold renderNaive pad4 pad2
  simp only [List.cons_append, List.nil_append]
  simp only [parseNaive]
  rw [digits4_digitChar y hy, digits2_digitChar mo (by omega),
      digits2_digitChar d (by have := daysInMonth_le y mo; omega),
      digits2_digitChar h (by omega),
      digits2_digitChar mi (by omega), digits2_digitChar s (by omega)]
  simp [hmo1, hmo2, hd1, hd2, hh, hmi, hs]

/-- A rendered naive string is never accepted by the ISO parser: its
separator at position 10 is a space, where ISO requires a `T`. -/
theorem parseIso_renderNaive (f : CivilTime) :
    parseIso (renderNaive f) = none := by
  unfold renderNaive pad4 pad2
  simp only [List.cons_append, List.nil_append]
  simp [parseIso]

/-- `fixOffset` with a provisional offset equal to the instant's own
offset returns the instant at once. -/
theorem fixOffset_exact (t o : Int) (h : buchOffset t = o) :
    fixOffset (t + buchOffset t) o buchOffset = (t, o) := by
  rw [h]
  have e1 : t + o - o = t := by omega
  simp only [fixOffset, e1, h, if_pos rfl, if_true]

/-- Case characterization of `fixOffset`. -/
theorem fixOffset_spec (lts o : Int) (off : Int → Int) :
    (off (lts - o) = o ∧ fixOffset lts o off = (lts - o, o))
    ∨ (off (lts - o) ≠ o ∧ off (lts - off (lts - o)) = off (lts - o)
        ∧ fixOffset lts o off = (lts - off (lts - o), off (lts - o)))
    ∨ (off (lts - o) ≠ o ∧ off (lts - off (lts - o)) ≠ off (lts - o)
        ∧ fixOffset lts o off
            = (lts - min (off (lts - o)) (off (lts - off (lts - o))),
               min (off (lts - o)) (off (lts - off (lts - o))))) := by
  by_cases h1 : off (lts - o) = o
  · exact Or.inl ⟨h1, by simp only [fixOffset]; rw [if_pos h1]⟩
  · by_cases h2 : off (lts - off (lts - o)) = off (lts - o)
    · exact Or.inr (Or.inl ⟨h1, h2, by simp only [fixOffset]; rw [if_neg h1, if_pos h2]⟩)
    · exact Or.inr (Or.inr ⟨h1, h2, by simp only [fixOffset]; rw [if_neg h1, if_neg h2]⟩)

/-- On a local time that is attained by some instant (so not inside the
spring-forward hole), `fixOffset` over the Bucharest offset function — whose
range is the two offsets `bOfsStd`/`bOfsDst` — returns an instant with
exactly that wall clock, for either provisional offset. -/
theorem fixOffset_attained (lts o t : Int)
    (ho : o = bOfsStd ∨ o = bOfsDst)
    (ht : t + buchOffset t = lts) :
    (fixOffset lts o buchOffset).1
      + buchOffset ((fixOffset lts o buchOffset).1) = lts := by
  rcases fixOffset_spec lts o buchOffset with ⟨h1, he⟩ | ⟨h1, h2, he⟩ | ⟨h1, h2, he⟩
  · rw [he]
    show lts - o + buchOffset (lts - o) = lts
    rw [h1]
    omega
  · rw [he]
    show lts - buchOffset (lts - o) + buchOffset (lts - buchOffset (lts - o)) = lts
    rw [h2]
    omega
  · exfalso
    rcases buchOffset_cases t with hto | hto
    · rcases ho with hoS | hoD
      · apply h1
        have e : lts - o = t := by rw [hoS, ← hto]; omega
        rw [e, hto, hoS]
      · rcases buchOffset_cases (lts - o) with ho2S | ho2D
        · apply h2
          have e : lts - buchOffset (lts - o) = t := by rw [ho2S, ← hto]; omega
          rw [e, hto, ho2S]
        · exact h1 (by rw [ho2D, hoD])
    · rcases ho with hoS | hoD
      · rcases buchOffset_cases (lts - o) with ho2S | ho2D
        · exact h1 (by rw [ho2S, hoS])
        · apply h2
          have e : lts - buchOffset (lts - o) = t := by rw [ho2D, ← hto]; omega
          rw [e, hto, ho2D]
      · apply h1
        have e : lts - o = t := by rw [hoD, ← hto]; omega
        rw [e, hto, hoD]

/-- C6 counterexample.  First conjunct: the claim's round trip — formatting
a canonical-zone instant in the naive pattern and normalizing the result —
does not always yield the original instant: the two distinct instants
1761438600000 (2025-10-26T00:30Z, UTC+3 in Bucharest) and 1761442200000
(2025-10-26T01:30Z, UTC+2) both format to `2025-10-26 03:30:00`, the
repeated wall clock of the DST fall-back, so no parse can recover both.
Second and third conjuncts: a zone-naive string is not always interpreted
as Bucharest-local either — `2025-11-22T14:15:20` (no offset, `T`
separator) is accepted by the ISO parse and resolved in the process's
default zone (here UTC), and the resulting instant's Bucharest wall clock
differs from the string's fields. -/
theorem C6_counterexample :
    (¬ ∀ (dz : Int → Int) (dp bp t : Int),
        normalizeTs dz dp bp (formatNaive t) = some t)
    ∧ normalizeTs (fun _ => 0) 0 bOfsStd "2025-11-22T14:15:20" = some 1763820920000
    ∧ (1763820920000 : Int) + buchOffset 1763820920000
        ≠ localTS ⟨2025, 11, 22, 14, 15, 20, 0⟩ := by
  refine ⟨?_, by decide, by decide⟩
  intro hAll
  have h1 := hAll (fun _ => 0) 0 bOfsStd 1761438600000
  have h2 := hAll (fun _ => 0) 0 bOfsStd 1761442200000
  have hfmt : formatNaive 1761438600000 = formatNaive 1761442200000 := by decide
  rw [hfmt] at h1
  rw [h1] at h2
  have h3 : (1761438600000 : Int) = 1761442200000 := Option.some.inj h2
  exact absurd h3 (by decide)

/-- C6 (amended): a zone-naive string in the `yyyy-MM-dd HH:mm:ss` pattern
(the only naive pattern the `fromFormat` fallback accepts; `T`-separated
offset-less ISO strings are instead resolved in the process default zone)
is interpreted as Europe/Bucharest-local: for every valid wall-clock `f`
attained by some instant `t0`, normalizing the rendered string yields an
instant whose Bucharest wall clock is exactly `f` — no offset shift — for
either provisional offset; and when the provisional offset used by the
parse agrees with the instant's own offset the round trip returns exactly
`t0`.  (At the DST fall-back two instants share one wall clock, so the
result can only be pinned up to that ambiguity.) -/
theorem C6_thm (f : CivilTime) (o t0 : Int) (dz : Int → Int) (dp : Int)
    (hf : ValidNaive f) (ho : o = bOfsStd ∨ o = bOfsDst)
    (ht : t0 + buchOffset t0 = localTS f) :
    ∃ r, normalizeTs dz dp o (String.mk (renderNaive f)) = some r
      ∧ r + buchOffset r = localTS f
      ∧ (buchOffset t0 = o → r = t0) := by
  have hiso : parseIso (String.mk (renderNaive f)).toList = none := parseIso_renderNaive f
  have hfmt : parseNaive (String.mk (renderNaive f)).toList = some f := parseNaive_renderNaive f hf
  refine ⟨(fixOffset (localTS f) o buchOffset).1, ?_, ?_, ?_⟩
  · unfold normalizeTs
    rw [hiso, hfmt]
  · exact fixOffset_attained (localTS f) o t0 ho ht
  · intro hmatch
    have he := fixOffset_exact t0 o hmatch
    rw [ht] at he
    rw [he]

/-- Witness for C6: the naive string for wall clock 2025-11-22 16:15:20 is
normalized to the instant 1763820920000 (= 2025-11-22T14:15:20Z). -/
theorem C6_witness :
    ValidNaive ⟨2025, 11, 22, 16, 15, 20, 0⟩
    ∧ ((1763820920000 : Int) + buchOffset 1763820920000
        = localTS ⟨2025, 11, 22, 16, 15, 20, 0⟩)
    ∧ ∃ r, normalizeTs (fun _ => 0) 0 bOfsStd
          (String.mk (renderNaive ⟨2025, 11, 22, 16, 15, 20, 0⟩)) = some r
        ∧ r + buchOffset r = localTS ⟨2025, 11, 22, 16, 15, 20, 0⟩
        ∧ (buchOffset 1763820920000 = bOfsStd → r = 1763820920000) :=
  ⟨by decide, by decide,
   C6_thm ⟨2025, 11, 22, 16, 15, 20, 0⟩ bOfsStd 1763820920000 (fun _ => 0) 0
     (by decide) (Or.inl rfl) (by decide)⟩

end PTA
